import Mathlib

/-!
Verification development for the gremlins `unleash` command (`cmd/unleash.go`)
and its coverage phase (`pkg/coverage`).

Strings are modelled as lists of characters (`Str`); Go's standard-library
string and path helpers used by the code (`strings.ReplaceAll`,
`strings.ToLower`, `path/filepath.Clean`, `path/filepath.Rel` for Unix
separators) are modelled faithfully below.  External collaborators (the OS,
`exec.Command`, `cover.ParseProfilesFromReader`, the mutator, the reporter)
are modelled as oracles carried in environment records; everything the
repository's own code does with their results is translated directly from
the source.
-/

/-! ## Strings and Go standard-library helpers -/

abbrev Str := List Char

def str (s : String) : Str := s.data

/-- Go `strings.ReplaceAll(s, pat, rep)`: replaces all non-overlapping
instances of `pat` in `s`, scanning left to right.  (Go's special case for an
empty `old` string is irrelevant here: every caller in the source passes a
non-empty pattern, which the guard reflects.) -/
def replaceAll (s pat rep : Str) : Str :=
  if h : pat ≠ [] ∧ pat.isPrefixOf s then
    rep ++ replaceAll (s.drop pat.length) pat rep
  else
    match s with
    | [] => []
    | c :: rest => c :: replaceAll rest pat rep
termination_by s.length
decreasing_by
  · have hp : pat.length ≤ s.length := List.IsPrefix.length_le (List.isPrefixOf_iff_prefix.mp h.2)
    have hpos : 0 < pat.length := List.length_pos.mpr h.1
    have hs : 0 < s.length := lt_of_lt_of_le hpos hp
    simp [List.length_drop]
    omega
  · simp

/-- Go `strings.ToLower` restricted to ASCII (all identifiers fed to it by
this code are ASCII): `'A'..'Z'` map to `'a'..'z'`, everything else is kept. -/
def charLower (c : Char) : Char :=
  if 65 ≤ c.toNat ∧ c.toNat ≤ 90 then Char.ofNat (c.toNat + 32) else c

def toLowerStr (s : Str) : Str := s.map charLower

/-- Splitting a path on the Unix separator, as the element scanning of Go's
`path/filepath` functions does. -/
def splitSlash (s : Str) : List Str := s.splitOn '/'

/-- Stack-based core of Go `path/filepath.Clean` (Unix rules): drops empty
and `.` components, cancels `..` against a preceding component, keeps
leading `..` components of relative paths and drops them at a root. -/
def cleanLoop (rooted : Bool) : List Str → List Str → List Str
  | acc, [] => acc.reverse
  | acc, c :: rest =>
    if c = [] ∨ c = ['.'] then cleanLoop rooted acc rest
    else if c = ['.', '.'] then
      match acc with
      | [] => if rooted then cleanLoop rooted [] rest else cleanLoop rooted [['.', '.']] rest
      | top :: accTail =>
        if top = ['.', '.'] then cleanLoop rooted (c :: acc) rest
        else cleanLoop rooted accTail rest
    else cleanLoop rooted (c :: acc) rest

def joinSlash (comps : List Str) : Str := List.intercalate ['/'] comps

/-- Go `path/filepath.Clean` for Unix separators. -/
def clean (path : Str) : Str :=
  if path = [] then ['.']
  else
    let rooted := path.head? = some '/'
    let comps := cleanLoop rooted [] (splitSlash path)
    if rooted then '/' :: joinSlash comps
    else if comps = [] then ['.']
    else joinSlash comps

/-- The separator-delimited elements Go `filepath.Rel` compares, after the
special base handling (`base == "."` becomes empty) and with the shared root
separator of absolute paths consumed. -/
def relComps (s : Str) : List Str :=
  if s = [] then []
  else if s.head? = some '/' then
    if s.drop 1 = [] then [] else splitSlash (s.drop 1)
  else splitSlash s

/-- Position both element lists at their first differing elements, as the
scanning loop of Go `filepath.Rel` does. -/
def dropCommon : List Str → List Str → List Str × List Str
  | b :: bs, t :: ts => if b = t then dropCommon bs ts else (b :: bs, t :: ts)
  | bs, ts => (bs, ts)

/-- Go `path/filepath.Rel(basepath, targpath)` for Unix (no volume names);
`none` models the error return, in which case Go's first return value is the
empty string. -/
def rel (basepath targpath : Str) : Option Str :=
  let base := clean basepath
  let targ := clean targpath
  if targ = base then some ['.']
  else
    let base := if base = ['.'] then ([] : Str) else base
    let baseSlashed := base.head? = some '/'
    let targSlashed := targ.head? = some '/'
    if baseSlashed ≠ targSlashed then none
    else
      match dropCommon (relComps base) (relComps targ) with
      | (bh :: bt, t) =>
        if bh = ['.', '.'] then none
        else some (joinSlash (List.replicate (bh :: bt).length ['.', '.'] ++ t))
      | ([], t) => some (joinSlash t)

/-! ## Errors and external result tokens -/

/-- A Go `error` value; `wrap msg inner` models `fmt.Errorf("msg: %w", inner)`
(the formatted prefix is kept as the plain format text). -/
inductive GoError where
  | mk (msg : String)
  | wrap (msg : String) (inner : GoError)
deriving DecidableEq, Repr

/-- Opaque token for the external `report.Results` aggregate. -/
structure Results where
  tag : Nat
deriving DecidableEq, Repr

/-- The zero value `report.Results{}`. -/
def Results.zero : Results := ⟨0⟩

/-! ## Coverage data model (`pkg/coverage`) -/

/-- `internal/gomodule.GoModule`: canonical module name, root directory and
package directory. -/
structure GoModule where
  Name : Str
  Root : Str
  PkgDir : Str

/-- `pkg/coverage.Block`: a coverage block kept in the profile. -/
structure Block where
  StartLine : Int
  StartCol : Int
  EndLine : Int
  EndCol : Int
deriving DecidableEq, Repr

/-- `golang.org/x/tools/cover.ProfileBlock` (external library). -/
structure CoverProfileBlock where
  StartLine : Int
  StartCol : Int
  EndLine : Int
  EndCol : Int
  NumStmt : Int
  Count : Int
deriving DecidableEq, Repr

/-- `golang.org/x/tools/cover.Profile` (external library). -/
structure CoverProfile where
  FileName : Str
  Mode : Str
  Blocks : List CoverProfileBlock

/-- The content of a `coverage.Profile` map; a missing key reads as `[]`,
like a Go map read. -/
abbrev ProfileMap := Str → List Block

/-- A Go `coverage.Profile` value: `none` is the nil map. -/
abbrev Profile := Option ProfileMap

/-- The configuration store entries this code reads
(`configuration.Get[string](configuration.UnleashTagsKey)`). -/
structure Configuration where
  unleashTags : Str

/-- `pkg/coverage.Coverage`.  The `cmdContext` execution seam is modelled by
the oracle environment `CoverageEnv` instead of a stored function. -/
structure Coverage where
  workDir : Str
  path : Str
  fileName : Str
  mod : GoModule
  buildTags : Str

/-- `coverage.NewWithCmd`: builds the `Coverage` value, reading the build
tags from the configuration store, then applies the options in order. -/
def NewWithCmd (cfg : Configuration) (workdir : Str) (mod : GoModule)
    (opts : List (Coverage → Coverage)) : Coverage :=
  let c : Coverage :=
    { workDir := workdir
      path := str "./..."
      fileName := str "coverage"
      mod := mod
      buildTags := cfg.unleashTags }
  opts.foldl (fun c opt => opt c) c

/-- `coverage.New`: `NewWithCmd` with the real `exec.Command` and no options. -/
def coverageNew (cfg : Configuration) (workdir : Str) (mod : GoModule) : Coverage :=
  NewWithCmd cfg workdir mod []

/-- `Coverage.filePath()`: `fmt.Sprintf("%v/%v", c.workDir, c.fileName)`. -/
def Coverage.filePath (c : Coverage) : Str := c.workDir ++ str "/" ++ c.fileName

/-- Outcomes of the external commands and file operations the coverage phase
performs, together with the wall time each consumes. -/
structure CoverageEnv where
  downloadErr : Option GoError
  downloadDuration : Nat
  coverageCmdErr : Option GoError
  coverageCmdDuration : Nat
  openErr : Option GoError
  parsedReport : Except GoError (List CoverProfile)
  profileDuration : Nat

/-- `Coverage.downloadModules()`: runs `go mod download`; the oracle decides
the outcome, and the wall clock advances by the command's duration. -/
def Coverage.downloadModules (_c : Coverage) (env : CoverageEnv) (clock : Nat) :
    Option GoError × Nat :=
  (env.downloadErr, clock + env.downloadDuration)

/-- `Coverage.executeCoverage()`: builds the `go test` argument list, runs the
command and measures its wall time with `time.Now`/`time.Since`.  Returns
(elapsed, error), the argument list handed to the toolchain, and the advanced
clock. -/
def Coverage.executeCoverage (c : Coverage) (env : CoverageEnv) (clock : Nat) :
    (Nat × Option GoError) × List Str × Nat :=
  let args := [str "test"]
  let args := if c.buildTags ≠ [] then args ++ [str "-tags", c.buildTags] else args
  let args := args ++ [str "-cover", str "-coverprofile", c.filePath, c.path]
  let start := clock
  let now := clock + env.coverageCmdDuration
  match env.coverageCmdErr with
  | some e => ((0, some e), args, now)
  | none => ((now - start, none), args, now)

/-- Go map write `status[fn] = append(status[fn], block)`. -/
def mapAppend (m : ProfileMap) (k : Str) (b : Block) : ProfileMap :=
  fun s => if s = k then m k ++ [b] else m s

/-- `Coverage.removeModuleFromPath`: `strings.ReplaceAll(p.FileName,
c.mod.Name+"/", "")` followed by `filepath.Rel(c.mod.PkgDir, path)` with the
error ignored (on error Go's `Rel` returns the empty string). -/
def Coverage.removeModuleFromPath (c : Coverage) (p : CoverProfile) : Str :=
  let path := replaceAll p.FileName (c.mod.Name ++ str "/") []
  (rel c.mod.PkgDir path).getD []

/-- `Coverage.parse`: the input is the result of the external
`cover.ParseProfilesFromReader`; the block-filtering loop is the code's own. -/
def Coverage.parse (c : Coverage) (parsed : Except GoError (List CoverProfile)) :
    Profile × Option GoError :=
  match parsed with
  | .error e => (none, some e)
  | .ok profiles =>
    let status := profiles.foldl (fun status p =>
      p.Blocks.foldl (fun status b =>
        if b.Count = 0 then status
        else
          let block : Block :=
            { StartLine := b.StartLine
              StartCol := b.StartCol
              EndLine := b.EndLine
              EndCol := b.EndCol }
          let fn := c.removeModuleFromPath p
          mapAppend status fn block) status) (fun _ => [])
    (some status, none)

/-- Result of `(*os.File).Close()` as observed by the deferred close in
`getProfile`: on a nil receiver Go's `File.Close` returns `ErrInvalid`
instead of panicking. -/
inductive CloseResult where
  | ok
  | errInvalid
deriving DecidableEq, Repr

/-- Observable outcome of `Coverage.getProfile`: the two return values plus
whether `parse` was reached and what the deferred close evaluated to. -/
structure GetProfileOut where
  profile : Profile
  err : Option GoError
  parseCalled : Bool
  closeRes : CloseResult

/-- `Coverage.getProfile()`: opens the report file (outcome decided by the
oracle), with the close deferred before the error check; on an open error it
returns `(nil, err)` and the deferred close acts on the nil handle. -/
def Coverage.getProfile (c : Coverage) (env : CoverageEnv) : GetProfileOut :=
  match env.openErr with
  | some e => { profile := none, err := some e, parseCalled := false, closeRes := .errInvalid }
  | none =>
    match c.parse env.parsedReport with
    | (_, some e) => { profile := none, err := some e, parseCalled := true, closeRes := .ok }
    | (profile, none) => { profile := profile, err := none, parseCalled := true, closeRes := .ok }

/-- `coverage.Result`: the parsed profile and the elapsed wall time of the
coverage test command. -/
structure CovResult where
  Profile : Profile
  Elapsed : Nat

/-- `Coverage.Run()`: download modules, execute the coverage test, parse the
report; each failure is wrapped and returned with the zero `Result`. -/
def Coverage.Run (c : Coverage) (env : CoverageEnv) (clock : Nat) :
    CovResult × Option GoError × Nat :=
  match c.downloadModules env clock with
  | (some e, clock2) =>
    ({ Profile := none, Elapsed := 0 },
     some (.wrap "impossible to download modules" e), clock2)
  | (none, clock2) =>
    match c.executeCoverage env clock2 with
    | ((_, some e), _, clock3) =>
      ({ Profile := none, Elapsed := 0 },
       some (.wrap "impossible to executeCoverage coverage" e), clock3)
    | ((elapsed, none), _, clock3) =>
      let clock4 := clock3 + env.profileDuration
      let gp := c.getProfile env
      match gp.err with
      | some e =>
        ({ Profile := none, Elapsed := 0 },
         some (.wrap "an error occurred while generating coverage profile" e), clock4)
      | none => ({ Profile := gp.profile, Elapsed := elapsed }, none, clock4)

/-! ## The `run` pipeline (`cmd/unleash.go` `run`) -/

/-- Outcomes of the external collaborators `run` uses: `gomodule.Init`, the
coverage environment, and the mutator (whose result is opaque here). -/
structure RunEnv where
  initErr : Option GoError
  mod : GoModule
  covEnv : CoverageEnv
  mutate : CovResult → Results

/-- `run(ctx, workDir, currPath)`: module detection, coverage phase, then the
mutator.  The final `Bool` records whether mutation testing was reached. -/
def runFn (renv : RunEnv) (cfg : Configuration) (workDir _currPath : Str) (clock : Nat) :
    Results × Option GoError × Bool :=
  match renv.initErr with
  | some e => (Results.zero, some (.wrap "is not in a Go module" e), false)
  | none =>
    let c := coverageNew cfg workDir renv.mod
    match Coverage.Run c renv.covEnv clock with
    | (_, some e, _) => (Results.zero, some (.wrap "failed to gather coverage" e), false)
    | (p, none, _) => (renv.mutate p, none, true)

/-! ## The `unleash` command (`cmd/unleash.go` `runUnleash`) -/

/-- Filesystem-visible state the command touches: the process working
directory, the temporary work roots currently existing, and a log of every
work root ever created by `os.MkdirTemp`. -/
structure World where
  cwd : String
  liveDirs : List String
  createdDirs : List String
deriving DecidableEq, Repr

/-- Oracle outcomes for the command's external operations: positional
arguments, `os.Getwd`, `filepath.Abs`, the injected `os.Chdir`,
`os.TempDir()` and the random suffix `os.MkdirTemp` picks, whether the
cancellation context fired before the run completed, and the outcome of
`report.Do`. -/
structure UnleashEnv where
  args : List String
  getwdErr : Option GoError
  absOf : String → String
  chdirErr : String → Option GoError
  tempDir : String
  mkdirErr : Option GoError
  tmpSuffix : String
  ctxFired : Bool
  reportDo : Results → Option GoError

/-- `changePath(args, os.Chdir, os.Getwd)`: records the run directory, makes
the positional argument absolute, and changes into it unless it is `"."`. -/
def changePath (env : UnleashEnv) (w : World) : Except GoError (String × String × World) :=
  match env.getwdErr with
  | some e => .error e
  | none =>
    let rd := w.cwd
    let cp := w.cwd
    let cp := match env.args with
      | [] => cp
      | a :: _ => env.absOf a
    if cp ≠ "." then
      match env.chdirErr cp with
      | some e => .error e
      | none => .ok (cp, rd, { w with cwd := cp })
    else .ok (cp, rd, w)

/-- `os.MkdirTemp(os.TempDir(), "gremlins-")`: on success the new work root
is the temp directory plus the `gremlins-` prefix plus a random suffix. -/
def mkdirTempWork (env : UnleashEnv) (w : World) : Except GoError (String × World) :=
  match env.mkdirErr with
  | some e => .error e
  | none =>
    let wd := env.tempDir ++ "/gremlins-" ++ env.tmpSuffix
    .ok (wd, { w with liveDirs := wd :: w.liveDirs, createdDirs := wd :: w.createdDirs })

/-- `cleanUp(wd, rd)`: `os.Chdir(rd)` then `os.RemoveAll(wd)`.  Failures of
either are only logged; the embedding models the operations as effective. -/
def cleanUp (wd rd : String) (w : World) : World :=
  { w with cwd := rd, liveDirs := w.liveDirs.filter (fun d => d != wd) }

/-- The observable outcome of the `unleash` `RunE` closure: the returned
error value, the final filesystem state, and whether `report.Do` ran. -/
structure UnleashOutcome where
  ret : Option GoError
  world : World
  reportCalled : Bool
deriving DecidableEq, Repr

/-- `runUnleash(ctx)`: change path, create the work root, defer `cleanUp`,
run the pipeline under `runWithCancel` (on a fired context the watcher
goroutine sets `cancelled`), then return the error, `nil` when cancelled, or
`report.Do(results)`. -/
def runUnleash (env : UnleashEnv) (runner : String → String → Results × Option GoError)
    (w : World) : UnleashOutcome :=
  match changePath env w with
  | .error e => { ret := some e, world := w, reportCalled := false }
  | .ok (currPath, runDir, w1) =>
    match mkdirTempWork env w1 with
    | .error e =>
      { ret := some (.wrap "impossible to create the workdir" e), world := w1
        reportCalled := false }
    | .ok (workDir, w2) =>
      let cancelled := env.ctxFired
      let ro := runner workDir currPath
      match ro.2 with
      | some e => { ret := some e, world := cleanUp workDir runDir w2, reportCalled := false }
      | none =>
        if cancelled then
          { ret := none, world := cleanUp workDir runDir w2, reportCalled := false }
        else
          { ret := env.reportDo ro.1, world := cleanUp workDir runDir w2, reportCalled := true }

/-! ## Flags (`setFlagsOnCmd`, `setMutantTypeFlags`) -/

/-- The normalization function installed by `setFlagsOnCmd` via
`SetNormalizeFunc`: `strings.ReplaceAll` with `"."` then `"_"`, each mapped
to `"-"`. -/
def normalizeFlagName (name : Str) : Str :=
  [str ".", str "_"].foldl (fun n sep => replaceAll n sep (str "-")) name

/-- Modelled from the spec: the closed enumeration of mutant kinds
(`pkg/mutant.MutantTypes` is not under `src/`); §3 of the spec lists these
five required kinds. -/
inductive MutantType where
  | conditionalsBoundary
  | conditionalsNegation
  | incrementDecrement
  | invertNegatives
  | arithmeticBase
deriving DecidableEq, Repr

/-- Modelled from the spec: the catalog's enumeration order is irrelevant to
the claims; the list holds each kind once. -/
def MutantTypes : List MutantType :=
  [.conditionalsBoundary, .conditionalsNegation, .incrementDecrement,
   .invertNegatives, .arithmeticBase]

/-- The fields of `flags.Flag` the mutant-kind registration fills that the
claims are about (`Name` and the boolean `DefaultV`). -/
structure MutantFlag where
  Name : Str
  DefaultV : Bool

/-- `setMutantTypeFlags(cmd)`: for every kind, the flag name is the kind's
identifier with `"_"` replaced by `"-"` and then lowercased, and the default
is `configuration.IsDefaultEnabled`.  The identifier and default functions
live in packages outside `src/`, so they are parameters here. -/
def setMutantTypeFlags (mutantString : MutantType → Str)
    (isDefaultEnabled : MutantType → Bool) : List MutantFlag :=
  MutantTypes.map (fun mt =>
    let name := mutantString mt
    let param := replaceAll name (str "_") (str "-")
    let param2 := toLowerStr param
    { Name := param2, DefaultV := isDefaultEnabled mt })

/-- Modelled from the spec: stable identifiers for the five kinds, in the
upper-snake-case shape the registration code expects (the catalog package is
not under `src/`). -/
def specMutantString : MutantType → Str
  | .conditionalsBoundary => str "CONDITIONALS_BOUNDARY"
  | .conditionalsNegation => str "CONDITIONALS_NEGATION"
  | .incrementDecrement => str "INCREMENT_DECREMENT"
  | .invertNegatives => str "INVERT_NEGATIVES"
  | .arithmeticBase => str "ARITHMETIC_BASE"

/-- The profile key as the spec describes it: the report's file path with the
module name prefix stripped (once, as a prefix), then made relative to the
module's package directory. -/
def specProfileKey (c : Coverage) (p : CoverProfile) : Str :=
  let pre := c.mod.Name ++ str "/"
  let stripped := if pre.isPrefixOf p.FileName then p.FileName.drop pre.length else p.FileName
  (rel c.mod.PkgDir stripped).getD []

/-! ## Helper lemmas about the string models -/

theorem replaceAll_singleton_eq_map (a b : Char) (s : Str) :
    replaceAll s [a] [b] = s.map (fun c => if c = a then b else c) := by
  induction s with
  | nil => rw [replaceAll]; simp
  | cons c rest ih =>
    rw [replaceAll]
    by_cases hc : c = a
    · subst hc
      simp [List.isPrefixOf]
      exact ih
    · simp [List.isPrefixOf, hc, Ne.symm hc, ih]

theorem replaceAll_of_not_infix (s pat rep : Str) (h : ¬ pat <:+: s) :
    replaceAll s pat rep = s := by
  induction s with
  | nil => rw [replaceAll]; simp
  | cons c rest ih =>
    have hnp : ¬ pat.isPrefixOf (c :: rest) = true := fun hp =>
      h (List.IsPrefix.isInfix (List.isPrefixOf_iff_prefix.mp hp))
    rw [replaceAll, dif_neg (fun hc => hnp hc.2)]
    exact congrArg (c :: ·) (ih (fun hi => h (List.infix_cons hi)))

theorem replaceAll_append_self (pat t rep : Str) (hne : pat ≠ []) :
    replaceAll (pat ++ t) pat rep = rep ++ replaceAll t pat rep := by
  rw [replaceAll,
    dif_pos ⟨hne, List.isPrefixOf_iff_prefix.mpr (List.prefix_append pat t)⟩,
    List.drop_left]

theorem charLower_eq_underscore_iff (c : Char) : charLower c = '_' ↔ c = '_' := by
  unfold charLower
  by_cases h : 65 ≤ c.toNat ∧ c.toNat ≤ 90
  · rw [if_pos h]
    constructor
    · intro he
      have hv : (c.toNat + 32).isValidChar := Or.inl (by omega)
      have ht : (Char.ofNat (c.toNat + 32)).toNat = c.toNat + 32 := by
        rw [Char.ofNat, dif_pos hv]
        rfl
      have h2 := congrArg Char.toNat he
      rw [ht] at h2
      have h95 : ('_'.toNat) = 95 := rfl
      omega
    · intro he
      subst he
      exact absurd h (by decide)
  · rw [if_neg h]

theorem toLower_replace_underscore_comm (s : Str) :
    toLowerStr (replaceAll s (str "_") (str "-")) =
      replaceAll (toLowerStr s) (str "_") (str "-") := by
  show toLowerStr (replaceAll s ['_'] ['-']) = replaceAll (toLowerStr s) ['_'] ['-']
  rw [replaceAll_singleton_eq_map, toLowerStr, toLowerStr, replaceAll_singleton_eq_map,
    List.map_map, List.map_map]
  apply List.map_congr_left
  intro a _
  by_cases ha : a = '_'
  · subst ha
    simp [Function.comp, charLower]
  · have hl : charLower a ≠ '_' := fun hc => ha ((charLower_eq_underscore_iff a).mp hc)
    simp [Function.comp, ha, hl]

/-! ## Claim C7: flag name normalization -/

/-- C7.  Every `'.'` and every `'_'` in a flag name is replaced by `'-'` by
the normalization function `setFlagsOnCmd` installs, so two names whose
normalized separator images coincide denote the same flag. -/
theorem normalizeFlagName_replaces_separators (name : Str) :
    normalizeFlagName name = name.map (fun c => if c = '.' ∨ c = '_' then '-' else c) ∧
    ∀ s t : Str,
      s.map (fun c => if c = '.' ∨ c = '_' then '-' else c) =
        t.map (fun c => if c = '.' ∨ c = '_' then '-' else c) →
      normalizeFlagName s = normalizeFlagName t := by
  have key : ∀ n : Str,
      normalizeFlagName n = n.map (fun c => if c = '.' ∨ c = '_' then '-' else c) := by
    intro n
    show replaceAll (replaceAll n ['.'] ['-']) ['_'] ['-'] = _
    rw [replaceAll_singleton_eq_map, replaceAll_singleton_eq_map, List.map_map]
    apply List.map_congr_left
    intro a _
    by_cases h1 : a = '.'
    · subst h1; simp
    · by_cases h2 : a = '_'
      · subst h2; simp
      · simp [Function.comp, h1, h2]
  exact ⟨key name, fun s t h => by rw [key s, key t, h]⟩

/-- Witness for C7 at concrete flag names. -/
theorem normalizeFlagName_replaces_separators_witness :
    normalizeFlagName (str "threshold.efficacy") =
      (str "threshold.efficacy").map (fun c => if c = '.' ∨ c = '_' then '-' else c) ∧
    (str "threshold.efficacy").map (fun c => if c = '.' ∨ c = '_' then '-' else c) =
      (str "threshold_efficacy").map (fun c => if c = '.' ∨ c = '_' then '-' else c) ∧
    normalizeFlagName (str "threshold.efficacy") = normalizeFlagName (str "threshold_efficacy") :=
  ⟨(normalizeFlagName_replaces_separators (str "threshold.efficacy")).1,
   by decide,
   (normalizeFlagName_replaces_separators (str "threshold.efficacy")).2 _ _ (by decide)⟩

/-! ## Claim C8: per-kind mutant flags -/

/-- C8.  For every mutant kind in the catalog, `setMutantTypeFlags` registers
a boolean flag whose name is the kind's identifier with `'_'` mapped to `'-'`
and lowercased (the two transformations commute, so this is also the
identifier lowercased with `'_'` replaced by `'-'`), and whose default is the
catalog's `IsDefaultEnabled` value. -/
theorem setMutantTypeFlags_name_and_default (ms : MutantType → Str)
    (ide : MutantType → Bool) (mt : MutantType) (hmt : mt ∈ MutantTypes) :
    ∃ fl ∈ setMutantTypeFlags ms ide,
      fl.Name = toLowerStr (replaceAll (ms mt) (str "_") (str "-")) ∧
      fl.Name = replaceAll (toLowerStr (ms mt)) (str "_") (str "-") ∧
      fl.DefaultV = ide mt := by
  refine ⟨{ Name := toLowerStr (replaceAll (ms mt) (str "_") (str "-")), DefaultV := ide mt },
    ?_, rfl, toLower_replace_underscore_comm (ms mt), rfl⟩
  unfold setMutantTypeFlags
  exact List.mem_map_of_mem _ hmt

/-- Witness for C8 at a concrete kind, identifier table and default table. -/
theorem setMutantTypeFlags_name_and_default_witness :
    MutantType.conditionalsBoundary ∈ MutantTypes ∧
    ∃ fl ∈ setMutantTypeFlags specMutantString (fun _ => true),
      fl.Name = toLowerStr (replaceAll (specMutantString .conditionalsBoundary) (str "_") (str "-")) ∧
      fl.Name = replaceAll (toLowerStr (specMutantString .conditionalsBoundary)) (str "_") (str "-") ∧
      fl.DefaultV = (fun _ => true) MutantType.conditionalsBoundary :=
  ⟨by simp [MutantTypes],
   setMutantTypeFlags_name_and_default specMutantString (fun _ => true)
     .conditionalsBoundary (by simp [MutantTypes])⟩

/-! ## Claim C6: build tags argument -/

/-- C6.  With a non-empty configured tags value, the coverage test command
receives `-tags <value>` right after `test` and before the coverage
arguments; with the empty default, no `-tags` argument appears at all. -/
theorem executeCoverage_tags_insertion (cfg : Configuration) (wd : Str) (mod : GoModule)
    (env : CoverageEnv) (clock : Nat) :
    (cfg.unleashTags ≠ [] →
      (Coverage.executeCoverage (coverageNew cfg wd mod) env clock).2.1 =
        [str "test", str "-tags", cfg.unleashTags, str "-cover", str "-coverprofile",
         (coverageNew cfg wd mod).filePath, str "./..."]) ∧
    (cfg.unleashTags = [] →
      str "-tags" ∉ (Coverage.executeCoverage (coverageNew cfg wd mod) env clock).2.1) := by
  have htags : (coverageNew cfg wd mod).buildTags = cfg.unleashTags := rfl
  have hpath : (coverageNew cfg wd mod).path = str "./..." := rfl
  have hfp : str "-tags" ≠ (coverageNew cfg wd mod).filePath := by
    intro h
    have hlen := congrArg List.length h
    rw [Coverage.filePath, List.length_append, List.length_append] at hlen
    have e1 : (str "-tags").length = 5 := rfl
    have e2 : (str "/").length = 1 := rfl
    have e3 : ((coverageNew cfg wd mod).fileName).length = 8 := rfl
    omega
  constructor
  · intro h
    cases he : env.coverageCmdErr <;>
      simp [Coverage.executeCoverage, htags, hpath, h, he]
  · intro h
    cases he : env.coverageCmdErr <;>
      simp [Coverage.executeCoverage, htags, hpath, h, he] <;>
      refine ⟨by decide, by decide, by decide, hfp, by decide⟩

/-- Witness for C6: one run with tags `"integration"`, one with the default. -/
theorem executeCoverage_tags_insertion_witness :
    ((str "integration" : Str) ≠ []) ∧
    (Coverage.executeCoverage
        (coverageNew ⟨str "integration"⟩ (str "/tmp/gremlins-1") ⟨str "m", str "/m", str "."⟩)
        ⟨none, 0, none, 3, none, .ok [], 0⟩ 0).2.1 =
      [str "test", str "-tags", str "integration", str "-cover", str "-coverprofile",
       (coverageNew ⟨str "integration"⟩ (str "/tmp/gremlins-1") ⟨str "m", str "/m", str "."⟩).filePath,
       str "./..."] ∧
    str "-tags" ∉
      (Coverage.executeCoverage
        (coverageNew ⟨[]⟩ (str "/tmp/gremlins-1") ⟨str "m", str "/m", str "."⟩)
        ⟨none, 0, none, 3, none, .ok [], 0⟩ 0).2.1 :=
  ⟨by decide,
   (executeCoverage_tags_insertion ⟨str "integration"⟩ (str "/tmp/gremlins-1")
      ⟨str "m", str "/m", str "."⟩ ⟨none, 0, none, 3, none, .ok [], 0⟩ 0).1 (by decide),
   (executeCoverage_tags_insertion ⟨[]⟩ (str "/tmp/gremlins-1")
      ⟨str "m", str "/m", str "."⟩ ⟨none, 0, none, 3, none, .ok [], 0⟩ 0).2 rfl⟩

/-! ## Claim C10: open failure in getProfile -/

/-- C10.  If opening the coverage report fails, `getProfile` returns the open
error with a nil profile, never reaches `parse`, and the close deferred on
the nil handle evaluates to `ErrInvalid` instead of panicking. -/
theorem getProfile_open_failure (c : Coverage) (env : CoverageEnv) (e : GoError)
    (h : env.openErr = some e) :
    Coverage.getProfile c env =
      { profile := none, err := some e, parseCalled := false, closeRes := .errInvalid } := by
  unfold Coverage.getProfile
  rw [h]

/-- Witness for C10 at a concrete failing open. -/
theorem getProfile_open_failure_witness :
    (CoverageEnv.openErr ⟨none, 0, none, 0, some (.mk "open coverage: no such file"), .ok [], 0⟩ =
      some (.mk "open coverage: no such file")) ∧
    Coverage.getProfile (coverageNew ⟨[]⟩ (str "/tmp/gremlins-2") ⟨str "m", str "/m", str "."⟩)
        ⟨none, 0, none, 0, some (.mk "open coverage: no such file"), .ok [], 0⟩ =
      { profile := none, err := some (.mk "open coverage: no such file"),
        parseCalled := false, closeRes := .errInvalid } :=
  ⟨rfl,
   getProfile_open_failure (coverageNew ⟨[]⟩ (str "/tmp/gremlins-2") ⟨str "m", str "/m", str "."⟩)
     ⟨none, 0, none, 0, some (.mk "open coverage: no such file"), .ok [], 0⟩
     (.mk "open coverage: no such file") rfl⟩

/-! ## Claim C9: Elapsed measures only the test command -/

/-- C9.  On a successful coverage phase, the `Elapsed` field of the result is
exactly the wall time of the coverage test command: the module download and
the report parsing durations do not occur in it. -/
theorem coverage_elapsed_only_test_command (c : Coverage) (env : CoverageEnv) (clock : Nat)
    (h1 : env.downloadErr = none) (h2 : env.coverageCmdErr = none)
    (h3 : (Coverage.getProfile c env).err = none) :
    (Coverage.Run c env clock).1.Elapsed = env.coverageCmdDuration := by
  simp [Coverage.Run, Coverage.downloadModules, Coverage.executeCoverage, h1, h2, h3]

/-- Witness for C9: download takes 11, the test command 7, parsing 13; the
elapsed value is 7. -/
theorem coverage_elapsed_only_test_command_witness :
    (CoverageEnv.downloadErr ⟨none, 11, none, 7, none, .ok [], 13⟩ = none) ∧
    (CoverageEnv.coverageCmdErr ⟨none, 11, none, 7, none, .ok [], 13⟩ = none) ∧
    ((Coverage.getProfile (coverageNew ⟨[]⟩ (str "/tmp/g") ⟨str "m", str "/m", str "."⟩)
        ⟨none, 11, none, 7, none, .ok [], 13⟩).err = none) ∧
    (Coverage.Run (coverageNew ⟨[]⟩ (str "/tmp/g") ⟨str "m", str "/m", str "."⟩)
        ⟨none, 11, none, 7, none, .ok [], 13⟩ 100).1.Elapsed = 7 :=
  ⟨rfl, rfl, rfl,
   coverage_elapsed_only_test_command (coverageNew ⟨[]⟩ (str "/tmp/g") ⟨str "m", str "/m", str "."⟩)
     ⟨none, 11, none, 7, none, .ok [], 13⟩ 100 rfl rfl rfl⟩

/-! ## Claim C5: coverage error taxonomy and abort -/

/-- C5.  Each of the three coverage steps failing makes `Coverage.Run` return
the zero result and the wrapped step error; when all three succeed the result
carries the parsed profile and the elapsed duration; and any coverage error
makes `run` abort with that error wrapped, before the mutator is invoked. -/
theorem coverage_error_taxonomy (cfg : Configuration) (renv : RunEnv) (wd cp : Str)
    (clock : Nat) :
    (∀ e, renv.covEnv.downloadErr = some e →
      Coverage.Run (coverageNew cfg wd renv.mod) renv.covEnv clock =
        ({ Profile := none, Elapsed := 0 },
         some (.wrap "impossible to download modules" e),
         clock + renv.covEnv.downloadDuration)) ∧
    (∀ e, renv.covEnv.downloadErr = none → renv.covEnv.coverageCmdErr = some e →
      (Coverage.Run (coverageNew cfg wd renv.mod) renv.covEnv clock).1 =
        { Profile := none, Elapsed := 0 } ∧
      (Coverage.Run (coverageNew cfg wd renv.mod) renv.covEnv clock).2.1 =
        some (.wrap "impossible to executeCoverage coverage" e)) ∧
    (∀ e, renv.covEnv.downloadErr = none → renv.covEnv.coverageCmdErr = none →
      (Coverage.getProfile (coverageNew cfg wd renv.mod) renv.covEnv).err = some e →
      (Coverage.Run (coverageNew cfg wd renv.mod) renv.covEnv clock).1 =
        { Profile := none, Elapsed := 0 } ∧
      (Coverage.Run (coverageNew cfg wd renv.mod) renv.covEnv clock).2.1 =
        some (.wrap "an error occurred while generating coverage profile" e)) ∧
    (renv.covEnv.downloadErr = none → renv.covEnv.coverageCmdErr = none →
      (Coverage.getProfile (coverageNew cfg wd renv.mod) renv.covEnv).err = none →
      (Coverage.Run (coverageNew cfg wd renv.mod) renv.covEnv clock).1 =
        { Profile := (Coverage.getProfile (coverageNew cfg wd renv.mod) renv.covEnv).profile,
          Elapsed := renv.covEnv.coverageCmdDuration } ∧
      (Coverage.Run (coverageNew cfg wd renv.mod) renv.covEnv clock).2.1 = none) ∧
    (∀ e, renv.initErr = none →
      (Coverage.Run (coverageNew cfg wd renv.mod) renv.covEnv clock).2.1 = some e →
      runFn renv cfg wd cp clock =
        (Results.zero, some (.wrap "failed to gather coverage" e), false)) := by
  refine ⟨?_, ?_, ?_, ?_, ?_⟩
  · intro e h
    simp [Coverage.Run, Coverage.downloadModules, h]
  · intro e h1 h2
    simp [Coverage.Run, Coverage.downloadModules, Coverage.executeCoverage, h1, h2]
  · intro e h1 h2 h3
    simp [Coverage.Run, Coverage.downloadModules, Coverage.executeCoverage, h1, h2, h3]
  · intro h1 h2 h3
    simp [Coverage.Run, Coverage.downloadModules, Coverage.executeCoverage, h1, h2, h3]
  · intro e h1 h2
    unfold runFn
    rw [h1]
    cases hr : Coverage.Run (coverageNew cfg wd renv.mod) renv.covEnv clock with
    | mk res rest =>
      cases rest with
      | mk re rc =>
        rw [hr] at h2
        simp at h2
        subst h2
        simp [hr]

/-- Witness for C5 on the download-failure branch and the all-success branch
of the same environment family. -/
theorem coverage_error_taxonomy_witness :
    ((⟨some (.mk "network down"), 4, none, 7, none, .ok [], 2⟩ : CoverageEnv).downloadErr =
      some (.mk "network down")) ∧
    Coverage.Run (coverageNew ⟨[]⟩ (str "/tmp/g5") ⟨str "m", str "/m", str "."⟩)
        ⟨some (.mk "network down"), 4, none, 7, none, .ok [], 2⟩ 0 =
      ({ Profile := none, Elapsed := 0 },
       some (.wrap "impossible to download modules" (.mk "network down")), 0 + 4) :=
  ⟨rfl,
   (coverage_error_taxonomy ⟨[]⟩
      { initErr := none, mod := ⟨str "m", str "/m", str "."⟩,
        covEnv := ⟨some (.mk "network down"), 4, none, 7, none, .ok [], 2⟩,
        mutate := fun _ => Results.zero }
      (str "/tmp/g5") (str ".") 0).1 (.mk "network down") rfl⟩

/-! ## Claim C2: parse keeps exactly the nonzero-count blocks -/

theorem mem_mapAppend (m : ProfileMap) (k : Str) (v : Block) (fn : Str) (bl : Block) :
    bl ∈ mapAppend m k v fn ↔ bl ∈ m fn ∨ (k = fn ∧ v = bl) := by
  unfold mapAppend
  by_cases h : fn = k
  · subst h
    simp [eq_comm]
  · rw [if_neg h]
    constructor
    · exact Or.inl
    · rintro (hm | ⟨hk, _⟩)
      · exact hm
      · exact absurd hk.symm h

theorem mem_parse_innerFold (key : Str) (blocks : List CoverProfileBlock)
    (status : ProfileMap) (fn : Str) (bl : Block) :
    bl ∈ (blocks.foldl (fun st b => if b.Count = 0 then st else mapAppend st key
        { StartLine := b.StartLine, StartCol := b.StartCol,
          EndLine := b.EndLine, EndCol := b.EndCol }) status) fn ↔
      bl ∈ status fn ∨ ∃ b ∈ blocks, b.Count ≠ 0 ∧ key = fn ∧
        ({ StartLine := b.StartLine, StartCol := b.StartCol,
           EndLine := b.EndLine, EndCol := b.EndCol } : Block) = bl := by
  induction blocks generalizing status with
  | nil => simp
  | cons b bs ih =>
    rw [List.foldl_cons]
    by_cases hb : b.Count = 0
    · rw [if_pos hb, ih]
      simp [hb]
    · rw [if_neg hb, ih, mem_mapAppend]
      simp only [List.mem_cons]
      constructor
      · rintro ((h | ⟨hk, hv⟩) | ⟨b2, hb2, h2⟩)
        · exact Or.inl h
        · exact Or.inr ⟨b, Or.inl rfl, hb, hk, hv⟩
        · exact Or.inr ⟨b2, Or.inr hb2, h2⟩
      · rintro (h | ⟨b2, (rfl | hb2), h2⟩)
        · exact Or.inl (Or.inl h)
        · exact Or.inl (Or.inr ⟨h2.2.1, h2.2.2⟩)
        · exact Or.inr ⟨b2, hb2, h2⟩

theorem mem_parse_outerFold (c : Coverage) (profiles : List CoverProfile)
    (status : ProfileMap) (fn : Str) (bl : Block) :
    bl ∈ (profiles.foldl (fun status p =>
        p.Blocks.foldl (fun status b =>
          if b.Count = 0 then status
          else mapAppend status (c.removeModuleFromPath p)
            { StartLine := b.StartLine, StartCol := b.StartCol,
              EndLine := b.EndLine, EndCol := b.EndCol }) status) status) fn ↔
      bl ∈ status fn ∨ ∃ p ∈ profiles, ∃ b ∈ p.Blocks, b.Count ≠ 0 ∧
        c.removeModuleFromPath p = fn ∧
        ({ StartLine := b.StartLine, StartCol := b.StartCol,
           EndLine := b.EndLine, EndCol := b.EndCol } : Block) = bl := by
  induction profiles generalizing status with
  | nil => simp
  | cons p ps ih =>
    rw [List.foldl_cons, ih, mem_parse_innerFold]
    simp only [List.mem_cons]
    constructor
    · rintro ((h | ⟨b, hb, h2⟩) | ⟨p2, hp2, h2⟩)
      · exact Or.inl h
      · exact Or.inr ⟨p, Or.inl rfl, b, hb, h2⟩
      · exact Or.inr ⟨p2, Or.inr hp2, h2⟩
    · rintro (h | ⟨p2, (rfl | hp2), h2⟩)
      · exact Or.inl (Or.inl h)
      · exact Or.inl (Or.inr h2)
      · exact Or.inr ⟨p2, hp2, h2⟩

/-- C2.  A block of the parsed report appears in the profile under its file's
key if and only if its execution count is nonzero, and it appears with its
four coordinates copied unchanged. -/
theorem parse_block_mem_iff_count_nonzero (c : Coverage) (profiles : List CoverProfile)
    (fn : Str) (bl : Block) :
    bl ∈ ((Coverage.parse c (Except.ok profiles)).1.getD (fun _ => [])) fn ↔
      ∃ p ∈ profiles, ∃ b ∈ p.Blocks, b.Count ≠ 0 ∧
        c.removeModuleFromPath p = fn ∧
        ({ StartLine := b.StartLine, StartCol := b.StartCol,
           EndLine := b.EndLine, EndCol := b.EndCol } : Block) = bl := by
  have h := mem_parse_outerFold c profiles (fun _ => []) fn bl
  simp only [List.not_mem_nil, false_or] at h
  exact h

/-! ## Claim C3: profile keys and the module prefix -/

/-- Concrete coverage value for the C3 counterexample: module named `m`,
package directory `.`. -/
def c3ex : Coverage := coverageNew ⟨[]⟩ (str "/tmp/g3") ⟨str "m", str "/m", str "."⟩

/-- Concrete report entry for the C3 counterexample: the module name occurs
again in the middle of the file path. -/
def p3ex : CoverProfile := ⟨str "m/a/m/b.go", str "set", []⟩

/-- C3 counterexample.  `removeModuleFromPath` uses `strings.ReplaceAll`, so
it strips the inner occurrence of `"m/"` as well: the computed key is
`a/b.go`, while stripping only the module name prefix would give `a/m/b.go`. -/
theorem removeModuleFromPath_strips_inner_occurrences :
    Coverage.removeModuleFromPath c3ex p3ex = str "a/b.go" ∧
    specProfileKey c3ex p3ex = str "a/m/b.go" ∧
    Coverage.removeModuleFromPath c3ex p3ex ≠ specProfileKey c3ex p3ex := by
  have hrep : replaceAll (str "m/a/m/b.go") (str "m/") [] = str "a/b.go" := by
    simp [replaceAll, str]
  have key : Coverage.removeModuleFromPath c3ex p3ex = str "a/b.go" := by
    show (rel c3ex.mod.PkgDir (replaceAll p3ex.FileName (c3ex.mod.Name ++ str "/") [])).getD []
      = str "a/b.go"
    rw [show p3ex.FileName = str "m/a/m/b.go" from rfl,
      show c3ex.mod.Name ++ str "/" = str "m/" from rfl,
      show c3ex.mod.PkgDir = str "." from rfl, hrep]
    decide
  have keySpec : specProfileKey c3ex p3ex = str "a/m/b.go" := by decide
  refine ⟨key, keySpec, ?_⟩
  rw [key, keySpec]
  decide

/-- C3 amended.  The key is the file path with every occurrence of the module
name plus `"/"` removed, then made relative to the package directory; when
the module name occurs only as the leading prefix, this coincides with
stripping the prefix and making the result relative to the package
directory. -/
theorem removeModuleFromPath_eq_specKey_of_no_inner_occurrence (c : Coverage)
    (p : CoverProfile) (t : Str)
    (hsplit : p.FileName = (c.mod.Name ++ str "/") ++ t)
    (hno : ¬ (c.mod.Name ++ str "/") <:+: t) :
    Coverage.removeModuleFromPath c p = specProfileKey c p := by
  have hne : (c.mod.Name ++ str "/") ≠ [] := by simp [str]
  simp only [Coverage.removeModuleFromPath, specProfileKey, hsplit]
  rw [replaceAll_append_self _ _ _ hne, replaceAll_of_not_infix _ _ _ hno,
    List.nil_append,
    if_pos (List.isPrefixOf_iff_prefix.mpr (List.prefix_append _ t)), List.drop_left]

/-- Witness for the amended C3 at a concrete single-occurrence path. -/
theorem removeModuleFromPath_eq_specKey_witness :
    ((str "m/a/b.go" : Str) = ((str "m" : Str) ++ str "/") ++ str "a/b.go") ∧
    (¬ ((str "m" : Str) ++ str "/") <:+: str "a/b.go") ∧
    Coverage.removeModuleFromPath c3ex ⟨str "m/a/b.go", str "set", []⟩ =
      specProfileKey c3ex ⟨str "m/a/b.go", str "set", []⟩ :=
  ⟨by decide, by decide,
   removeModuleFromPath_eq_specKey_of_no_inner_occurrence c3ex
     ⟨str "m/a/b.go", str "set", []⟩ (str "a/b.go") (by decide) (by decide)⟩

/-! ## Helper facts about `changePath` and `runUnleash` -/

theorem changePath_ok_inv (env : UnleashEnv) (w : World) (cp rd : String) (w1 : World)
    (h : changePath env w = .ok (cp, rd, w1)) :
    rd = w.cwd ∧ w1.liveDirs = w.liveDirs ∧ w1.createdDirs = w.createdDirs := by
  unfold changePath at h
  cases hg : env.getwdErr with
  | some e => rw [hg] at h; simp at h
  | none =>
    rw [hg] at h
    simp only at h
    split at h
    · split at h
      · simp at h
      · simp only [Except.ok.injEq, Prod.mk.injEq] at h
        obtain ⟨h1, h2, h3⟩ := h
        exact ⟨h2.symm, by rw [← h3], by rw [← h3]⟩
    · simp only [Except.ok.injEq, Prod.mk.injEq] at h
      obtain ⟨h1, h2, h3⟩ := h
      exact ⟨h2.symm, by rw [← h3], by rw [← h3]⟩

theorem runUnleash_world_after_mkdir (env : UnleashEnv)
    (runner : String → String → Results × Option GoError) (w : World)
    (cp rd : String) (w1 : World)
    (hcp : changePath env w = .ok (cp, rd, w1)) (hmk : env.mkdirErr = none) :
    (runUnleash env runner w).world =
      cleanUp (env.tempDir ++ "/gremlins-" ++ env.tmpSuffix) rd
        { w1 with
          liveDirs := (env.tempDir ++ "/gremlins-" ++ env.tmpSuffix) :: w1.liveDirs
          createdDirs := (env.tempDir ++ "/gremlins-" ++ env.tmpSuffix) :: w1.createdDirs } := by
  unfold runUnleash
  rw [hcp]
  simp only [mkdirTempWork, hmk]
  cases hro : runner (env.tempDir ++ "/gremlins-" ++ env.tmpSuffix) cp with
  | mk r e =>
    cases e with
    | some e2 => simp [hro]
    | none => cases hf : env.ctxFired <;> simp [hro, hf]

/-! ## Claim C4: work root lifecycle and working directory -/

/-- Environment for the C4 counterexample: a positional module path, a
working `chdir`, and a failing `os.MkdirTemp`. -/
def env4bad : UnleashEnv :=
  { args := ["/other/mod"], getwdErr := none, absOf := fun s => s,
    chdirErr := fun _ => none, tempDir := "/tmp",
    mkdirErr := some (.mk "no space left on device"), tmpSuffix := "",
    ctxFired := false, reportDo := fun _ => none }

def w4ex : World := ⟨"/home/dev", [], []⟩

def runner4 : String → String → Results × Option GoError := fun _ _ => (⟨0⟩, none)

/-- C4 counterexample.  When `os.MkdirTemp` fails, the command exits on an
error path on which no work root was created and the working directory —
already changed by `changePath` — is not restored, because `cleanUp` is only
deferred after the work root exists. -/
theorem workdir_creation_failure_leaves_cwd_changed :
    (runUnleash env4bad runner4 w4ex).ret.isSome ∧
    (runUnleash env4bad runner4 w4ex).world.cwd = "/other/mod" ∧
    (runUnleash env4bad runner4 w4ex).world.cwd ≠ w4ex.cwd ∧
    (runUnleash env4bad runner4 w4ex).world.createdDirs = [] := by
  decide

/-- C4 amended.  Once `changePath` has succeeded and the work root creation
succeeds, exactly one work root is created, under the OS temp directory with
the `gremlins-` prefix, and on every exit path from that point (run error,
cancellation, or normal completion) the root is removed and the working
directory is restored to the directory current at run start. -/
theorem workroot_removed_and_cwd_restored_after_creation (env : UnleashEnv)
    (runner : String → String → Results × Option GoError) (w : World)
    (cp rd : String) (w1 : World)
    (hcp : changePath env w = .ok (cp, rd, w1)) (hmk : env.mkdirErr = none) :
    (runUnleash env runner w).world.cwd = w.cwd ∧
    (runUnleash env runner w).world.createdDirs =
      (env.tempDir ++ "/gremlins-" ++ env.tmpSuffix) :: w.createdDirs ∧
    (env.tempDir ++ "/gremlins-" ++ env.tmpSuffix) ∉ (runUnleash env runner w).world.liveDirs := by
  obtain ⟨hrd, hlive, hcreated⟩ := changePath_ok_inv env w cp rd w1 hcp
  rw [runUnleash_world_after_mkdir env runner w cp rd w1 hcp hmk]
  refine ⟨hrd, by rw [cleanUp]; simp [hcreated], ?_⟩
  rw [cleanUp]
  simp [List.mem_filter]

/-- Witness for the amended C4: a run that enters `/other/mod`, creates
`/tmp/gremlins-123`, and finishes normally. -/
def env4ok : UnleashEnv := { env4bad with mkdirErr := none, tmpSuffix := "123" }

theorem workroot_removed_and_cwd_restored_witness :
    changePath env4ok w4ex = .ok ("/other/mod", "/home/dev", ⟨"/other/mod", [], []⟩) ∧
    env4ok.mkdirErr = none ∧
    ((runUnleash env4ok runner4 w4ex).world.cwd = w4ex.cwd ∧
     (runUnleash env4ok runner4 w4ex).world.createdDirs =
       (env4ok.tempDir ++ "/gremlins-" ++ env4ok.tmpSuffix) :: w4ex.createdDirs ∧
     (env4ok.tempDir ++ "/gremlins-" ++ env4ok.tmpSuffix) ∉
       (runUnleash env4ok runner4 w4ex).world.liveDirs) :=
  ⟨rfl, rfl,
   workroot_removed_and_cwd_restored_after_creation env4ok runner4 w4ex
     "/other/mod" "/home/dev" ⟨"/other/mod", [], []⟩ rfl rfl⟩

/-! ## Claim C1: cancellation outcome of the unleash command -/

/-- Environment for C1: everything succeeds and the cancellation context
fires before the run completes. -/
def env1c : UnleashEnv :=
  { args := [], getwdErr := none, absOf := fun s => s, chdirErr := fun _ => none,
    tempDir := "/tmp", mkdirErr := none, tmpSuffix := "123", ctxFired := true,
    reportDo := fun _ => none }

/-- The same run without the cancellation signal. -/
def env1n : UnleashEnv := { env1c with ctxFired := false }

def w1ex : World := ⟨"/home/dev", [], []⟩

/-- The pipeline collects partial results and no error. -/
def runner1 : String → String → Results × Option GoError := fun _ _ => (⟨5⟩, none)

/-- C1 counterexample.  On a run whose cancellation context fired the command
returns `nil` — exactly the same value the identical non-cancelled run
returns — and it skips `report.Do`, so the collected partial results are not
reported; the return value is not a cancellation indicator. -/
theorem cancelled_run_outcome_counterexample :
    (runUnleash env1c runner1 w1ex).ret = none ∧
    (runUnleash env1n runner1 w1ex).ret = none ∧
    (runUnleash env1c runner1 w1ex).ret = (runUnleash env1n runner1 w1ex).ret ∧
    (runUnleash env1c runner1 w1ex).reportCalled = false ∧
    (runUnleash env1n runner1 w1ex).reportCalled = true := by
  decide

/-- C1 amended.  When the cancellation context fires before the run completes
(and the pipeline itself returned no error), the command returns `nil` — the
plain success value, with no cancellation indicator — and skips the
`report.Do` step; cleanup still runs. -/
theorem cancelled_run_returns_nil_and_skips_report (env : UnleashEnv)
    (runner : String → String → Results × Option GoError) (w : World)
    (cp rd : String) (w1 : World) (wd : String) (w2 : World)
    (hfired : env.ctxFired = true)
    (hcp : changePath env w = .ok (cp, rd, w1))
    (hmk : mkdirTempWork env w1 = .ok (wd, w2))
    (hrun : (runner wd cp).2 = none) :
    runUnleash env runner w =
      { ret := none, world := cleanUp wd rd w2, reportCalled := false } := by
  cases hro : runner wd cp with
  | mk r e =>
    rw [hro] at hrun
    simp only at hrun
    subst hrun
    simp [runUnleash, hcp, hmk, hfired, hro]

/-- Witness for the amended C1 at the concrete cancelled run. -/
theorem cancelled_run_returns_nil_witness :
    env1c.ctxFired = true ∧
    changePath env1c w1ex = .ok ("/home/dev", "/home/dev", w1ex) ∧
    mkdirTempWork env1c w1ex =
      .ok ("/tmp/gremlins-123", ⟨"/home/dev", ["/tmp/gremlins-123"], ["/tmp/gremlins-123"]⟩) ∧
    (runner1 "/tmp/gremlins-123" "/home/dev").2 = none ∧
    runUnleash env1c runner1 w1ex =
      { ret := none,
        world := cleanUp "/tmp/gremlins-123" "/home/dev"
          ⟨"/home/dev", ["/tmp/gremlins-123"], ["/tmp/gremlins-123"]⟩,
        reportCalled := false } :=
  ⟨rfl, rfl, rfl, rfl,
   cancelled_run_returns_nil_and_skips_report env1c runner1 w1ex
     "/home/dev" "/home/dev" w1ex "/tmp/gremlins-123"
     ⟨"/home/dev", ["/tmp/gremlins-123"], ["/tmp/gremlins-123"]⟩ rfl rfl rfl rfl⟩
